import Mathlib

/-!
Shallow embedding of the southbridge-transcriber core pipeline
(window planner, transcript validator, speaker reconciler, timeline
assembler, model-fallback transcription loop and the per-window
retry loop) together with theorems settling the specification claims.

Numbers are modelled by rationals.  JavaScript `NaN` propagation is
modelled by `Option ℚ` (with `none` playing the role of `NaN`): every
arithmetic operation returns `none` as soon as one operand is `none`,
and every comparison with `none` is false, as in JS.
-/

namespace SB

/-- JavaScript numbers carrying a possible NaN (`none`). -/
abbrev JsNum := Option ℚ

def jsAdd (a b : JsNum) : JsNum := do pure ((← a) + (← b))

def jsSub (a b : JsNum) : JsNum := do pure ((← a) - (← b))

def jsMul (a b : JsNum) : JsNum := do pure ((← a) * (← b))

/-- Division; a zero divisor is collapsed to `none`.  (JS returns
`±Infinity` or `NaN` there; no claim distinguishes the two, and every
comparison the code performs on such a value behaves as it does on
`none` in the situations that arise, see `validateTranscript`.) -/
def jsDiv (a b : JsNum) : JsNum := do
  let x ← a
  let y ← b
  if y = 0 then none else pure (x / y)

/-- `a < q` in JS: false when `a` is NaN. -/
def jsLtB (a : JsNum) (q : ℚ) : Bool :=
  match a with
  | some x => decide (x < q)
  | none => false

/-- `a > q` in JS: false when `a` is NaN. -/
def jsGtB (a : JsNum) (q : ℚ) : Bool :=
  match a with
  | some x => decide (q < x)
  | none => false

/-- Binary `Math.min`: NaN as soon as one operand is NaN. -/
def jsMin2 (a b : JsNum) : JsNum := do pure (min (← a) (← b))

/-- Binary `Math.max`, NaN-propagating. -/
def jsMax2 (a b : JsNum) : JsNum := do pure (max (← a) (← b))

/-- `Math.min(...l)` for a non-empty list.  (`Math.min()` of an empty
list is `Infinity`; the only call site guards against the empty list,
and we return `none` there.) -/
def jsMinList : List JsNum → JsNum
  | [] => none
  | h :: t => t.foldl jsMin2 h

/-- `Math.max(...l)` for a non-empty list, NaN-propagating. -/
def jsMaxList : List JsNum → JsNum
  | [] => none
  | h :: t => t.foldl jsMax2 h

/-- Truncation toward zero, as JS `%` and `parseInt` use. -/
def ratTrunc (q : ℚ) : ℤ :=
  if 0 ≤ q then ⌊q⌋ else -⌊-q⌋

/-- JS `a % b` (truncated remainder). -/
def jsMod (a b : ℚ) : ℚ :=
  a - b * (ratTrunc (a / b) : ℤ)

-- ===========================================
-- splitter / splitAudioToDir: the window planner
-- ===========================================

/-- `ChunkInfo` of `splitter.ts` (the `path` string, a file name, is
not part of the timing model). -/
structure ChunkInfo where
  startTime : ℚ
  endTime : ℚ
  index : ℕ
  deriving Repr, DecidableEq

/-- The window computation of `splitAudioToDir` (src/unnamed/part_007,
lines 748-822; identical arithmetic in `splitAudio` of
src/splitter.ts, lines 125-198): a single window for a short file,
otherwise `Math.ceil(duration / chunkStep)` windows starting at
`i * chunkStep` and ending at `min(start + chunkDuration, duration)`.
The ffmpeg invocations and file caching are I/O and are not part of
the timing model. -/
def planChunks (duration chunkDuration overlapDuration : ℚ) : List ChunkInfo :=
  if duration ≤ chunkDuration then
    [{ startTime := 0, endTime := duration, index := 0 }]
  else
    let chunkStep := chunkDuration - overlapDuration
    let totalChunks := (⌈duration / chunkStep⌉).toNat
    (List.range totalChunks).map fun (i : ℕ) =>
      { startTime := (i : ℚ) * chunkStep
        endTime := min ((i : ℚ) * chunkStep + chunkDuration) duration
        index := i }

/-- Helper: with duration 1200, window length 600 and overlap 60
(step 540) the planner's window count is `ceil(1200/540) = 3`. -/
theorem planChunks_ceil_1200 : (⌈(1200 : ℚ) / (600 - 60)⌉).toNat = 3 := by
  have h : ⌈(1200 : ℚ) / (600 - 60)⌉ = 3 := by
    rw [Int.ceil_eq_iff]
    constructor <;> norm_num
  rw [h]
  rfl

/-- Helper: the full evaluation of the planner on scenario A's inputs. -/
theorem planChunks_1200_eval :
    planChunks 1200 600 60 =
      [{ startTime := 0, endTime := 600, index := 0 },
       { startTime := 540, endTime := 1140, index := 1 },
       { startTime := 1080, endTime := 1200, index := 2 }] := by
  rw [planChunks, if_neg (by norm_num)]
  simp only [planChunks_ceil_1200, List.range_succ, List.range_zero]
  simp only [List.map_append, List.map_cons, List.map_nil, List.nil_append,
    List.cons_append]
  norm_num [List.cons.injEq, ChunkInfo.mk.injEq, min_def]

/-- C1 (amended): for a recording of 1200 seconds planned with window
length 600 and overlap 60 (step 540) the planner produces exactly the
three windows [0,600), [540,1140), [1080,1200); the second window
starts at 540 and ends at 1140, and the third is clamped at 1200. -/
theorem planChunks_1200_600_60 :
    planChunks 1200 600 60 =
      [{ startTime := 0, endTime := 600, index := 0 },
       { startTime := 540, endTime := 1140, index := 1 },
       { startTime := 1080, endTime := 1200, index := 2 }] :=
  planChunks_1200_eval

/-- C1 counterexample: with duration 1200, window length 600 and
overlap 60 (step 540) the planner produces `ceil(1200/540) = 3`
windows, not the two windows [0,600), [540,1200) the claim states. -/
theorem planChunks_1200_not_two_windows :
    (planChunks 1200 600 60).length = 3 ∧ (planChunks 1200 600 60).length ≠ 2 := by
  rw [planChunks_1200_eval]
  exact ⟨rfl, by decide⟩

/-- C2: for every total duration `D > 0` and configuration with
`0 ≤ ov < len`, the planned windows' `[start, end)` ranges cover
`[0, D)` with no gaps, the last window's end equals `D` exactly, and
every planned window has positive length. -/
theorem planChunks_cover (D len ov : ℚ) (hD : 0 < D) (hov : 0 ≤ ov) (hlt : ov < len) :
    (∀ t : ℚ, 0 ≤ t → t < D →
        ∃ c ∈ planChunks D len ov, c.startTime ≤ t ∧ t < c.endTime) ∧
    (∃ c, (planChunks D len ov).getLast? = some c ∧ c.endTime = D) ∧
    (∀ c ∈ planChunks D len ov, c.startTime < c.endTime) := by
  have hlen : 0 < len := lt_of_le_of_lt hov hlt
  by_cases hshort : D ≤ len
  · rw [planChunks, if_pos hshort]
    refine ⟨fun t ht0 htD => ⟨⟨0, D, 0⟩, List.mem_singleton.mpr rfl, ht0, htD⟩,
      ⟨⟨0, D, 0⟩, rfl, rfl⟩, ?_⟩
    intro c hc
    rw [List.mem_singleton] at hc
    subst hc
    exact hD
  · push_neg at hshort
    set step : ℚ := len - ov with hstepdef
    have hstep : 0 < step := by simp only [hstepdef]; linarith
    have hsteple : step ≤ len := by simp only [hstepdef]; linarith
    have hceil : (0 : ℤ) < ⌈D / step⌉ :=
      Int.ceil_pos.mpr (div_pos hD hstep)
    set n : ℕ := (⌈D / step⌉).toNat with hndef
    have hn : (n : ℤ) = ⌈D / step⌉ := Int.toNat_of_nonneg (le_of_lt hceil)
    have hplan : planChunks D len ov =
        (List.range n).map fun (i : ℕ) =>
          { startTime := (i : ℚ) * step
            endTime := min ((i : ℚ) * step + len) D
            index := i } := by
      rw [planChunks, if_neg (not_le.mpr hshort)]
    have hnpos : 0 < n := by omega
    obtain ⟨m, hm⟩ : ∃ m, n = m + 1 := ⟨n - 1, by omega⟩
    have hnstep : D ≤ (n : ℚ) * step := by
      have h1 : D / step ≤ ((⌈D / step⌉ : ℤ) : ℚ) := Int.le_ceil _
      have h2 : ((⌈D / step⌉ : ℤ) : ℚ) = (n : ℚ) := by
        rw [← hn]; push_cast; ring
      rw [div_le_iff₀ hstep] at h1
      calc D ≤ ((⌈D / step⌉ : ℤ) : ℚ) * step := h1
        _ = (n : ℚ) * step := by rw [h2]
    have hstart_lt : ∀ i : ℕ, i < n → (i : ℚ) * step < D := by
      intro i hi
      have hiz : (i : ℤ) < ⌈D / step⌉ := by omega
      have h3 : (i : ℚ) < D / step := by
        have h4 := Int.lt_ceil.mp hiz
        push_cast at h4
        exact h4
      calc (i : ℚ) * step < (D / step) * step :=
            mul_lt_mul_of_pos_right h3 hstep
        _ = D := div_mul_cancel₀ D (ne_of_gt hstep)
    refine ⟨?_, ?_, ?_⟩
    · intro t ht0 htD
      have htstep : 0 ≤ t / step := div_nonneg ht0 (le_of_lt hstep)
      have hj0 : 0 ≤ ⌊t / step⌋ := Int.floor_nonneg.mpr htstep
      set i : ℕ := (⌊t / step⌋).toNat with hidef
      have hij : (i : ℤ) = ⌊t / step⌋ := Int.toNat_of_nonneg hj0
      have hle : (i : ℚ) * step ≤ t := by
        have h1 : ((⌊t / step⌋ : ℤ) : ℚ) ≤ t / step := Int.floor_le _
        have h2 : (i : ℚ) = ((⌊t / step⌋ : ℤ) : ℚ) := by
          rw [← hij]; push_cast; ring
        rw [le_div_iff₀ hstep] at h1
        rw [h2]
        exact h1
      have hlt2 : t < ((i : ℚ) + 1) * step := by
        have h1 : t / step < ((⌊t / step⌋ : ℤ) : ℚ) + 1 := Int.lt_floor_add_one _
        have h2 : (i : ℚ) = ((⌊t / step⌋ : ℤ) : ℚ) := by
          rw [← hij]; push_cast; ring
        rw [div_lt_iff₀ hstep] at h1
        rw [h2]
        exact h1
      have hiltn : i < n := by
        by_contra hcon
        push_neg at hcon
        have hni : (n : ℚ) ≤ (i : ℚ) := by exact_mod_cast hcon
        have h5 : (n : ℚ) * step ≤ (i : ℚ) * step :=
          mul_le_mul_of_nonneg_right hni (le_of_lt hstep)
        linarith
      rw [hplan]
      refine ⟨_, List.mem_map.mpr ⟨i, List.mem_range.mpr hiltn, rfl⟩, hle, ?_⟩
      apply lt_min
      · calc t < ((i : ℚ) + 1) * step := hlt2
          _ = (i : ℚ) * step + step := by ring
          _ ≤ (i : ℚ) * step + len := by linarith
      · exact htD
    · rw [hplan, hm, List.range_succ, List.map_append, List.map_cons, List.map_nil]
      refine ⟨_, List.getLast?_concat _, ?_⟩
      show min ((m : ℚ) * step + len) D = D
      apply min_eq_right
      have hmn : ((m : ℚ) + 1) * step = (n : ℚ) * step := by
        have : ((m : ℚ) + 1) = (n : ℚ) := by
          rw [hm]; push_cast; ring
        rw [this]
      nlinarith [hnstep, hsteple]
    · intro c hc
      rw [hplan] at hc
      obtain ⟨i, hi, rfl⟩ := List.mem_map.mp hc
      apply lt_min
      · show (i : ℚ) * step < (i : ℚ) * step + len
        linarith
      · show (i : ℚ) * step < D
        exact hstart_lt i (List.mem_range.mp hi)

/-- C2 witness: at duration 1200, window 600, overlap 60, the instant
t = 700 is covered by some planned window. -/
theorem planChunks_cover_witness :
    ∃ c ∈ planChunks 1200 600 60, c.startTime ≤ 700 ∧ (700 : ℚ) < c.endTime :=
  (planChunks_cover 1200 600 60 (by norm_num) (by norm_num) (by norm_num)).1
    700 (by norm_num) (by norm_num)

-- ===========================================
-- JS string primitives (modelled structurally on character lists)
-- ===========================================

/-- Split a character list at every occurrence of a separator
character, as JS `split(':')` does ("".split(sep) gives [""]). -/
def splitOnCharAux (sep : Char) : List Char → List Char → List (List Char)
  | [], acc => [acc.reverse]
  | c :: cs, acc =>
      if c = sep then acc.reverse :: splitOnCharAux sep cs []
      else splitOnCharAux sep cs (c :: acc)

/-- JS `s.split(sep)` for a one-character separator. -/
def splitOnChar (sep : Char) (s : String) : List String :=
  (splitOnCharAux sep s.data []).map List.asString

/-- Decimal digits to a natural number; `none` when the list is empty
or contains a non-digit. -/
def digitsToNat (cs : List Char) : Option ℕ :=
  if cs = [] then none
  else if cs.all Char.isDigit then
    some (cs.foldl (fun n c => 10 * n + (c.toNat - 48)) 0)
  else none

/-- Model of the JS `Number()` string conversion restricted to the
decimal grammar `[ws] [+|-] (digits | digits . digits? | . digits)
[ws]`; exponents, hex literals and `Infinity` are not modelled and
give NaN.  The empty or all-whitespace string converts to 0, as in
JS. -/
def jsNumber (s : String) : JsNum :=
  let t := ((s.data.dropWhile Char.isWhitespace).reverse.dropWhile
    Char.isWhitespace).reverse
  if t = [] then some 0
  else
    let hs : ℚ × List Char :=
      match t with
      | '-' :: r => (-1, r)
      | '+' :: r => (1, r)
      | r => (1, r)
    match splitOnCharAux '.' hs.2 [] with
    | [ip] => (digitsToNat ip).map fun v => hs.1 * (v : ℚ)
    | [ip, fp] =>
        if ip = [] ∧ fp = [] then none
        else
          match (if ip = [] then some 0 else digitsToNat ip),
                (if fp = [] then some 0 else digitsToNat fp) with
          | some v, some f =>
              some (hs.1 * ((v : ℚ) + (f : ℚ) / (10 : ℚ) ^ fp.length))
          | _, _ => none
    | _ => none

/-- The shared body of `parseTimestamp` (src/validator.ts) and
`parseTime` (src/unnamed/part_007): `min*60 + sec` on two fields,
`hr*3600 + min*60 + sec` on three, and 0 on any other field count.
A non-numeric field yields NaN (`none`), which propagates through the
arithmetic as in JS. -/
def parseParts : List JsNum → JsNum
  | [minv, secv] => jsAdd (jsMul minv (some 60)) secv
  | [hrv, minv, secv] =>
      jsAdd (jsAdd (jsMul hrv (some 3600)) (jsMul minv (some 60))) secv
  | _ => some 0

/-- `parseTimestamp` of src/validator.ts (lines 64-76): guard the
empty string to 0, then split on ':' and combine the fields. -/
def parseTimestamp (timeStr : String) : JsNum :=
  if timeStr = "" then some 0
  else parseParts ((splitOnChar ':' timeStr).map jsNumber)

/-- `parseTime` of src/unnamed/part_007 (lines 121-132): identical to
`parseTimestamp` except that it lacks the empty-string guard (the
empty string still returns 0, through the one-field fallthrough). -/
def parseTime (timeStr : String) : JsNum :=
  parseParts ((splitOnChar ':' timeStr).map jsNumber)

/-- JS `String(n).padStart(2, '0')` for an integer. -/
def pad2 (n : ℤ) : String :=
  let s := toString n
  if s.length < 2 then String.mk (List.replicate (2 - s.length) '0') ++ s
  else s

/-- `formatTime` of src/unnamed/part_007 (lines 134-139): seconds to
"HH:MM:SS" using `Math.floor` and the JS `%` remainder. -/
def formatTime (totalSeconds : ℚ) : String :=
  pad2 ⌊totalSeconds / 3600⌋ ++ ":" ++ pad2 ⌊jsMod totalSeconds 3600 / 60⌋ ++
    ":" ++ pad2 ⌊jsMod totalSeconds 60⌋

/-- `formatTime` on a possibly-NaN input: `Math.floor(NaN)` is NaN,
`String(NaN)` is "NaN", and `"NaN".padStart(2, '0')` is "NaN". -/
def formatTimeJs : JsNum → String
  | some q => formatTime q
  | none => "NaN:NaN:NaN"

/-- The `\s*\d+$` tail of the generic-speaker regex: optional
whitespace then at least one digit, ending the string. -/
def spacesThenDigits (cs : List Char) : Bool :=
  let r := cs.dropWhile Char.isWhitespace
  !r.isEmpty && r.all Char.isDigit

/-- Strip `p` from the front of `cs` when it occurs there. -/
def stripHead : List Char → List Char → Option (List Char)
  | [], cs => some cs
  | _ :: _, [] => none
  | p :: ps, c :: cs => if c = p then stripHead ps cs else none

/-- Model of `genericPattern = /^(Speaker\s*\d+|Unknown|Person\s*\d+)$/i`
(src/validator.ts, lines 174 and 230); the `/i` flag is modelled by
lowercasing first. -/
def isGeneric (s : String) : Bool :=
  let l := s.data.map Char.toLower
  l = "unknown".data ||
  (match stripHead "speaker".data l with
   | some r => spacesThenDigits r
   | none => false) ||
  (match stripHead "person".data l with
   | some r => spacesThenDigits r
   | none => false)

-- ===========================================
-- validator.ts: data model and validateTranscript
-- ===========================================

/-- `TranscriptSegment` (src/types, part_002).  The `end` field is
typed as a string but the pipeline defends against the model omitting
it, so it is optional here; `endTs` stands for the source's `end`. -/
structure TEntry where
  speaker : String
  start : String
  endTs : Option String
  text : String
  tone : Option String := none
  deriving Repr, DecidableEq

inductive IssueType
  | timing_gap
  | timing_overflow
  | timing_underflow
  | speaker_inconsistency
  | empty_transcript
  deriving Repr, DecidableEq

inductive Severity
  | error
  | warning
  deriving Repr, DecidableEq

/-- A validation issue; the human-readable `message` and the `details`
payload carry no decision weight anywhere and are not modelled. -/
structure ValidationIssue where
  type : IssueType
  severity : Severity
  deriving Repr, DecidableEq

structure TranscriptStats where
  entryCount : ℕ
  firstTimestamp : JsNum
  lastTimestamp : JsNum
  expectedDuration : ℚ
  coverage : JsNum
  speakers : List String
  largestGap : ℚ
  deriving Repr, DecidableEq

structure ValidationResult where
  isValid : Bool
  issues : List ValidationIssue
  stats : TranscriptStats
  deriving Repr, DecidableEq

structure ValidationConfig where
  expectedDuration : ℚ
  minCoveragePercent : ℚ
  maxGapSeconds : ℚ
  knownSpeakers : Option (List String)
  strictTiming : Bool
  deriving Repr, DecidableEq

/-- The defaultable part of the validation configuration. -/
structure PartialValidationConfig where
  minCoveragePercent : ℚ
  maxGapSeconds : ℚ
  strictTiming : Bool
  deriving Repr, DecidableEq

/-- `DEFAULT_CONFIG` of src/validator.ts (lines 55-59).  In
`validateTranscript` the spread `{...DEFAULT_CONFIG, ...config}` is
overridden key-for-key by the typed config, whose required fields
cover every defaulted key, so these defaults are only reachable from
untyped callers. -/
def DEFAULT_CONFIG : PartialValidationConfig :=
  { minCoveragePercent := 70, maxGapSeconds := 120, strictTiming := false }

/-- `[...new Set(l)]`: deduplicate keeping the first occurrence, in
insertion order. -/
def insertUnique (l : List String) (x : String) : List String :=
  if x ∈ l then l else l ++ [x]

def jsSetDedup (l : List String) : List String :=
  l.foldl insertUnique []

/-- The comparator `(a, b) => a - b` under `Array.prototype.sort`: a
NaN comparator result counts as 0, so NaN compares equal to
everything; the sort is stable. -/
def jsNumLe (a b : JsNum) : Bool :=
  match a, b with
  | some x, some y => decide (x ≤ y)
  | _, _ => true

def jsSortNums (l : List JsNum) : List JsNum :=
  l.mergeSort jsNumLe

/-- The largest-gap loop of `validateTranscript` (src/validator.ts,
lines 121-126): fold over consecutive pairs of the sorted timestamps;
a NaN gap never updates the running maximum (NaN > g is false). -/
def computeLargestGap (sorted : List JsNum) : ℚ :=
  (sorted.zip sorted.tail).foldl
    (fun g p =>
      match jsSub p.2 p.1 with
      | some gap => if g < gap then gap else g
      | none => g) 0

/-- `validateTranscript` of src/validator.ts (lines 81-196).  The
spread `{...DEFAULT_CONFIG, ...config}` is the identity on the typed
config (see `DEFAULT_CONFIG`); issue `message`/`details` strings and
console logging are not modelled; `newSpeakers`/`missingSpeakers`
(lines 170-171) feed only the unmodelled `details` and are dropped.
`1.1` is the exact decimal 11/10. -/
def validateTranscript (transcript : List TEntry) (config : ValidationConfig) :
    ValidationResult :=
  let fullConfig := config
  if transcript.isEmpty then
    { isValid := false
      issues := [{ type := .empty_transcript, severity := .error }]
      stats := { entryCount := 0, firstTimestamp := some 0, lastTimestamp := some 0,
                 expectedDuration := fullConfig.expectedDuration, coverage := some 0,
                 speakers := [], largestGap := 0 } }
  else
    let timestamps := transcript.map fun e => parseTimestamp e.start
    let speakers := jsSetDedup (transcript.map (·.speaker))
    let firstTimestamp := jsMinList timestamps
    let lastTimestamp := jsMaxList timestamps
    let transcriptSpan := jsSub lastTimestamp firstTimestamp
    let coverage :=
      jsMul (jsDiv transcriptSpan (some fullConfig.expectedDuration)) (some 100)
    let largestGap := computeLargestGap (jsSortNums timestamps)
    let stats : TranscriptStats :=
      { entryCount := transcript.length
        firstTimestamp := firstTimestamp
        lastTimestamp := lastTimestamp
        expectedDuration := fullConfig.expectedDuration
        coverage := coverage
        speakers := speakers
        largestGap := largestGap }
    let underflowIssues : List ValidationIssue :=
      if jsLtB coverage fullConfig.minCoveragePercent then
        [{ type := .timing_underflow
           severity := if fullConfig.strictTiming then .error else .warning }]
      else []
    let overflowIssues : List ValidationIssue :=
      if jsGtB lastTimestamp (fullConfig.expectedDuration * (11 / 10)) then
        [{ type := .timing_overflow, severity := .warning }]
      else []
    let gapIssues : List ValidationIssue :=
      if fullConfig.maxGapSeconds < largestGap then
        [{ type := .timing_gap, severity := .warning }]
      else []
    let speakerIssues : List ValidationIssue :=
      match fullConfig.knownSpeakers with
      | some ks =>
          if ks.length > 0 ∧
             (ks.filter fun s => !isGeneric s).length > 0 ∧
             (speakers.filter isGeneric).length > 0 then
            [{ type := .speaker_inconsistency, severity := .warning }]
          else []
      | none => []
    let issues := underflowIssues ++ overflowIssues ++ gapIssues ++ speakerIssues
    { isValid := !issues.any fun i => i.severity = .error
      issues := issues
      stats := stats }

-- ===========================================
-- validator.ts: speaker reconciliation
-- ===========================================

/-- Lookup in a JS object modelled as an assignment list: later
assignments override earlier ones, hence the last match wins. -/
def jsRecordGet (m : List (String × String)) (k : String) : Option String :=
  ((m.filter fun p => p.1 = k).getLast?).map Prod.snd

/-- `map[key] || key`: the empty string is falsy in JS and also falls
back to the original key. -/
def jsOrGet (m : List (String × String)) (k : String) : String :=
  match jsRecordGet m k with
  | some v => if v = "" then k else v
  | none => k

/-- `buildSpeakerNormalizationMap` of src/validator.ts (lines
224-247): map each generic current speaker, in order, to a named known
speaker, in order, truncating at the shorter list.  The
`previousChunkLastSpeaker` parameter is unused in the source and
omitted here. -/
def buildSpeakerNormalizationMap (currentSpeakers knownSpeakers : List String) :
    List (String × String) :=
  let namedKnown := knownSpeakers.filter fun s => !isGeneric s
  let genericCurrent := currentSpeakers.filter isGeneric
  if namedKnown.length > 0 ∧ genericCurrent.length > 0 then
    genericCurrent.zip namedKnown
  else []

/-- `normalizeTranscriptSpeakers` of src/validator.ts (lines 252-262). -/
def normalizeTranscriptSpeakers (transcript : List TEntry)
    (speakerMap : List (String × String)) : List TEntry :=
  if speakerMap.isEmpty then transcript
  else transcript.map fun e => { e with speaker := jsOrGet speakerMap e.speaker }

-- ===========================================
-- Helper lemmas about the JS set model
-- ===========================================

theorem mem_insertUnique {l : List String} {x y : String} :
    y ∈ insertUnique l x ↔ y ∈ l ∨ y = x := by
  unfold insertUnique
  split
  · rename_i hx
    constructor
    · exact Or.inl
    · rintro (h | rfl)
      · exact h
      · exact hx
  · simp [List.mem_append]

theorem mem_foldl_insertUnique (l : List String) :
    ∀ acc x, x ∈ l.foldl insertUnique acc ↔ x ∈ acc ∨ x ∈ l := by
  induction l with
  | nil => intro acc x; simp
  | cons y ys ih =>
    intro acc x
    rw [List.foldl_cons, ih, mem_insertUnique]
    constructor
    · rintro ((h | rfl) | h)
      · exact Or.inl h
      · exact Or.inr (List.mem_cons_self _ _)
      · exact Or.inr (List.mem_cons_of_mem _ h)
    · rintro (h | h)
      · exact Or.inl (Or.inl h)
      · rcases List.mem_cons.mp h with rfl | h
        · exact Or.inl (Or.inr rfl)
        · exact Or.inr h

theorem mem_jsSetDedup {l : List String} {x : String} :
    x ∈ jsSetDedup l ↔ x ∈ l := by
  unfold jsSetDedup
  rw [mem_foldl_insertUnique]
  simp

theorem nodup_insertUnique {l : List String} (h : l.Nodup) (x : String) :
    (insertUnique l x).Nodup := by
  unfold insertUnique
  split
  · exact h
  · rename_i hx
    rw [List.nodup_append]
    refine ⟨h, List.nodup_singleton _, ?_⟩
    intro a ha hb
    rw [List.mem_singleton] at hb
    subst hb
    exact hx ha

theorem nodup_foldl_insertUnique (l : List String) :
    ∀ acc, acc.Nodup → (l.foldl insertUnique acc).Nodup := by
  induction l with
  | nil => intro acc h; simpa using h
  | cons y ys ih => intro acc h; exact ih _ (nodup_insertUnique h y)

theorem nodup_jsSetDedup (l : List String) : (jsSetDedup l).Nodup :=
  nodup_foldl_insertUnique l [] List.nodup_nil

theorem foldl_insertUnique_append (l : List String) :
    ∀ acc, ∃ tl, l.foldl insertUnique acc = acc ++ tl := by
  induction l with
  | nil => intro acc; exact ⟨[], (List.append_nil acc).symm⟩
  | cons y ys ih =>
    intro acc
    rw [List.foldl_cons]
    by_cases hy : y ∈ acc
    · rw [insertUnique, if_pos hy]
      exact ih acc
    · rw [insertUnique, if_neg hy]
      obtain ⟨tl, htl⟩ := ih (acc ++ [y])
      exact ⟨[y] ++ tl, by rw [htl, List.append_assoc]⟩

theorem foldl_insertUnique_self (l : List String) :
    ∀ acc, l.Nodup → (∀ x ∈ l, x ∉ acc) → l.foldl insertUnique acc = acc ++ l := by
  induction l with
  | nil => intro acc _ _; exact (List.append_nil acc).symm
  | cons y ys ih =>
    intro acc hnd hdisj
    rw [List.foldl_cons, insertUnique, if_neg (hdisj y (List.mem_cons_self _ _))]
    rw [ih (acc ++ [y]) (List.Nodup.of_cons hnd) ?_]
    · rw [List.append_assoc]
      rfl
    · intro x hx
      rw [List.mem_append, List.mem_singleton]
      rintro (hacc | rfl)
      · exact hdisj x (List.mem_cons_of_mem _ hx) hacc
      · exact (List.nodup_cons.mp hnd).1 hx

theorem jsSetDedup_eq_self {l : List String} (h : l.Nodup) : jsSetDedup l = l := by
  unfold jsSetDedup
  simpa using foldl_insertUnique_self l [] h (by simp)

theorem jsSetDedup_append_left (l xs : List String) (h : l.Nodup) :
    ∃ tl, jsSetDedup (l ++ xs) = l ++ tl := by
  unfold jsSetDedup
  rw [List.foldl_append]
  have hl : l.foldl insertUnique [] = l := by
    simpa using foldl_insertUnique_self l [] h (by simp)
  rw [hl]
  exact foldl_insertUnique_append xs l

-- ===========================================
-- C10: malformed timestamp strings parse to 0
-- ===========================================

theorem parseParts_default (l : List JsNum) (h2 : l.length ≠ 2) (h3 : l.length ≠ 3) :
    parseParts l = some 0 := by
  rcases l with _ | ⟨a, _ | ⟨b, _ | ⟨c, _ | ⟨d, rest⟩⟩⟩⟩
  · rfl
  · rfl
  · exact absurd rfl h2
  · exact absurd rfl h3
  · rfl

/-- C10: every timestamp string that is empty or does not split on ':'
into exactly two or three fields parses to 0 seconds in both the
validator's `parseTimestamp` and the pipeline's `parseTime`, so such a
segment is silently treated as starting at second 0 of its window by
the coverage, gap and timeline-offset computations that consume these
parsers. -/
theorem parse_bad_shape_zero (s : String)
    (h : s = "" ∨ ((splitOnChar ':' s).length ≠ 2 ∧ (splitOnChar ':' s).length ≠ 3)) :
    parseTimestamp s = some 0 ∧ parseTime s = some 0 := by
  by_cases hs : s = ""
  · subst hs
    exact ⟨by rw [parseTimestamp, if_pos rfl], rfl⟩
  · rcases h with h | ⟨h2, h3⟩
    · exact absurd h hs
    · have hm2 : ((splitOnChar ':' s).map jsNumber).length ≠ 2 := by
        rwa [List.length_map]
      have hm3 : ((splitOnChar ':' s).map jsNumber).length ≠ 3 := by
        rwa [List.length_map]
      refine ⟨?_, parseParts_default _ hm2 hm3⟩
      rw [parseTimestamp, if_neg hs]
      exact parseParts_default _ hm2 hm3

/-- C10 witness: "1:2:3:4" splits into four fields and both parsers
return 0 on it. -/
theorem parse_bad_shape_zero_witness :
    parseTimestamp "1:2:3:4" = some 0 ∧ parseTime "1:2:3:4" = some 0 :=
  parse_bad_shape_zero "1:2:3:4" (Or.inr ⟨by decide, by decide⟩)

-- ===========================================
-- C4: coverage formula and the timing_underflow issue
-- ===========================================

/-- Minimum of a rational list (head-seeded; 0 on the empty list,
which is never used). -/
def listMinQ : List ℚ → ℚ
  | [] => 0
  | h :: t => t.foldl min h

/-- Maximum of a rational list (head-seeded). -/
def listMaxQ : List ℚ → ℚ
  | [] => 0
  | h :: t => t.foldl max h

theorem foldl_jsMin2_map_some (t : List ℚ) :
    ∀ h : ℚ, (t.map some).foldl jsMin2 (some h) = some (t.foldl min h) := by
  induction t with
  | nil => intro h; rfl
  | cons y ys ih =>
    intro h
    rw [List.map_cons, List.foldl_cons, List.foldl_cons]
    exact ih (min h y)

theorem foldl_jsMax2_map_some (t : List ℚ) :
    ∀ h : ℚ, (t.map some).foldl jsMax2 (some h) = some (t.foldl max h) := by
  induction t with
  | nil => intro h; rfl
  | cons y ys ih =>
    intro h
    rw [List.map_cons, List.foldl_cons, List.foldl_cons]
    exact ih (max h y)

theorem jsMinList_map_some (qs : List ℚ) (h : qs ≠ []) :
    jsMinList (qs.map some) = some (listMinQ qs) := by
  rcases qs with _ | ⟨x, xs⟩
  · exact absurd rfl h
  · rw [List.map_cons]
    exact foldl_jsMin2_map_some xs x

theorem jsMaxList_map_some (qs : List ℚ) (h : qs ≠ []) :
    jsMaxList (qs.map some) = some (listMaxQ qs) := by
  rcases qs with _ | ⟨x, xs⟩
  · exact absurd rfl h
  · rw [List.map_cons]
    exact foldl_jsMax2_map_some xs x

/-- C4 counterexample to the claimed default: `DEFAULT_CONFIG` of
src/validator.ts sets `minCoveragePercent` to 70, not to the 60 the
claim states (the pipeline call site passes 60 explicitly instead). -/
theorem default_minCoverage_not_sixty :
    DEFAULT_CONFIG.minCoveragePercent = 70 ∧
    DEFAULT_CONFIG.minCoveragePercent ≠ 60 := by
  refine ⟨rfl, ?_⟩
  rw [show DEFAULT_CONFIG.minCoveragePercent = 70 from rfl]
  norm_num

/-- C4 (amended): for every non-empty transcript whose start strings
all parse, `validateTranscript` computes the coverage as
`(max(start) - min(start)) / expectedDuration * 100` and records a
`timing_underflow` issue exactly when the coverage is below the
configured minimum coverage percent, with severity warning (error only
when strict timing is requested); the `DEFAULT_CONFIG` value of
`minCoveragePercent` is 70 (the pipeline call site passes 60). -/
theorem validateTranscript_underflow (t : List TEntry) (cfg : ValidationConfig)
    (qs : List ℚ) (hne : t ≠ [])
    (hq : t.map (fun e => parseTimestamp e.start) = qs.map some)
    (hdur : cfg.expectedDuration ≠ 0) :
    (validateTranscript t cfg).stats.coverage
        = some ((listMaxQ qs - listMinQ qs) / cfg.expectedDuration * 100) ∧
    ((validateTranscript t cfg).issues.filter
        (fun iss => iss.type = IssueType.timing_underflow) =
      if (listMaxQ qs - listMinQ qs) / cfg.expectedDuration * 100
            < cfg.minCoveragePercent then
        [{ type := IssueType.timing_underflow
           severity := if cfg.strictTiming then Severity.error else Severity.warning }]
      else []) ∧
    DEFAULT_CONFIG.minCoveragePercent = 70 := by
  have hqs : qs ≠ [] := by
    intro h0
    subst h0
    rw [List.map_nil, List.map_eq_nil_iff] at hq
    exact hne hq
  have hne' : t.isEmpty = false := by
    rcases t with _ | ⟨e, es⟩
    · exact absurd rfl hne
    · rfl
  have hdiv : jsDiv (some (listMaxQ qs - listMinQ qs)) (some cfg.expectedDuration)
      = some ((listMaxQ qs - listMinQ qs) / cfg.expectedDuration) := by
    show (if cfg.expectedDuration = 0 then none
          else some ((listMaxQ qs - listMinQ qs) / cfg.expectedDuration)) = _
    rw [if_neg hdur]
  have hcov : jsMul (jsDiv (jsSub (jsMaxList (t.map fun e => parseTimestamp e.start))
      (jsMinList (t.map fun e => parseTimestamp e.start)))
      (some cfg.expectedDuration)) (some 100)
      = some ((listMaxQ qs - listMinQ qs) / cfg.expectedDuration * 100) := by
    rw [hq, jsMinList_map_some qs hqs, jsMaxList_map_some qs hqs,
      show jsSub (some (listMaxQ qs)) (some (listMinQ qs))
          = some (listMaxQ qs - listMinQ qs) from rfl, hdiv]
    rfl
  rw [validateTranscript]
  simp only [hne', Bool.false_eq_true, if_false]
  refine ⟨?_, ?_, rfl⟩
  · simp only [hcov]
  · simp only [hcov]
    rw [List.filter_append, List.filter_append, List.filter_append]
    have ho : List.filter (fun iss : ValidationIssue =>
          decide (iss.type = IssueType.timing_underflow))
        (if jsGtB (jsMaxList (t.map fun e => parseTimestamp e.start))
              (cfg.expectedDuration * (11 / 10)) = true then
          [({ type := IssueType.timing_overflow, severity := Severity.warning } :
            ValidationIssue)]
        else []) = [] := by
      split <;> rfl
    have hg : List.filter (fun iss : ValidationIssue =>
          decide (iss.type = IssueType.timing_underflow))
        (if cfg.maxGapSeconds <
              computeLargestGap (jsSortNums (t.map fun e => parseTimestamp e.start)) then
          [({ type := IssueType.timing_gap, severity := Severity.warning } :
            ValidationIssue)]
        else []) = [] := by
      split <;> rfl
    have hs : List.filter (fun iss : ValidationIssue =>
          decide (iss.type = IssueType.timing_underflow))
        (match cfg.knownSpeakers with
         | some ks =>
            if ks.length > 0 ∧
               (ks.filter fun s => !isGeneric s).length > 0 ∧
               ((jsSetDedup (t.map fun x => x.speaker)).filter isGeneric).length > 0 then
              [({ type := IssueType.speaker_inconsistency,
                  severity := Severity.warning } : ValidationIssue)]
            else []
         | none => ([] : List ValidationIssue)) = [] := by
      rcases hks : cfg.knownSpeakers with _ | ks <;> simp only [hks]
      · rfl
      · split <;> rfl
    rw [ho, hg, hs, List.append_nil, List.append_nil, List.append_nil]
    simp only [jsLtB, decide_eq_true_eq]
    split <;> rfl


/-- C4 witness: a two-entry transcript with starts 00:00 and 00:05
against an expected duration of 600 (the pipeline passes a 60-percent
minimum) yields coverage (5 - 0)/600*100 and a timing_underflow
issue with severity warning since strict timing is off. -/
theorem validateTranscript_underflow_witness :
    (validateTranscript
        [{ speaker := "A", start := "00:00", endTs := none, text := "x" },
         { speaker := "B", start := "00:05", endTs := none, text := "y" }]
        { expectedDuration := 600, minCoveragePercent := 60, maxGapSeconds := 120,
          knownSpeakers := none, strictTiming := false }).stats.coverage
      = some ((listMaxQ [0, 5] - listMinQ [0, 5]) / 600 * 100) ∧
    ((validateTranscript
        [{ speaker := "A", start := "00:00", endTs := none, text := "x" },
         { speaker := "B", start := "00:05", endTs := none, text := "y" }]
        { expectedDuration := 600, minCoveragePercent := 60, maxGapSeconds := 120,
          knownSpeakers := none, strictTiming := false }).issues.filter
        (fun iss => iss.type = IssueType.timing_underflow) =
      if (listMaxQ [0, 5] - listMinQ [0, 5]) / 600 * 100 < (60 : ℚ) then
        [{ type := IssueType.timing_underflow
           severity := if false then Severity.error else Severity.warning }]
      else []) ∧
    DEFAULT_CONFIG.minCoveragePercent = 70 :=
  validateTranscript_underflow
    [{ speaker := "A", start := "00:00", endTs := none, text := "x" },
     { speaker := "B", start := "00:05", endTs := none, text := "y" }]
    { expectedDuration := 600, minCoveragePercent := 60, maxGapSeconds := 120,
      knownSpeakers := none, strictTiming := false }
    [0, 5] (by decide)
    (by simp +decide [parseTimestamp, parseParts, splitOnChar, splitOnCharAux,
      jsNumber, digitsToNat, jsAdd, jsMul])
    (by norm_num)

-- ===========================================
-- C9: speaker reconciliation idempotence
-- ===========================================

/-- The unique speakers of a transcript in order of first appearance
(`[...new Set(transcript.map(e => e.speaker))]`). -/
def uniqueSpeakers (t : List TEntry) : List String :=
  jsSetDedup (t.map (·.speaker))

/-- C9 counterexample: on the transcript with speakers
["Speaker 1", "Speaker 2"] and knownSpeakers ["Alice"], the first
reconciliation maps only "Speaker 1" to "Alice"; rebuilding a map from
the result maps the leftover "Speaker 2" to "Alice", so the second
application changes the transcript. -/
theorem reconcile_not_idempotent :
    normalizeTranscriptSpeakers
        (normalizeTranscriptSpeakers
          [{ speaker := "Speaker 1", start := "00:00", endTs := none, text := "a" },
           { speaker := "Speaker 2", start := "00:05", endTs := none, text := "b" }]
          (buildSpeakerNormalizationMap
            (uniqueSpeakers
              [{ speaker := "Speaker 1", start := "00:00", endTs := none, text := "a" },
               { speaker := "Speaker 2", start := "00:05", endTs := none, text := "b" }])
            ["Alice"]))
        (buildSpeakerNormalizationMap
          (uniqueSpeakers
            (normalizeTranscriptSpeakers
              [{ speaker := "Speaker 1", start := "00:00", endTs := none, text := "a" },
               { speaker := "Speaker 2", start := "00:05", endTs := none, text := "b" }]
              (buildSpeakerNormalizationMap
                (uniqueSpeakers
                  [{ speaker := "Speaker 1", start := "00:00", endTs := none, text := "a" },
                   { speaker := "Speaker 2", start := "00:05", endTs := none, text := "b" }])
                ["Alice"])))
          ["Alice"])
      ≠ normalizeTranscriptSpeakers
          [{ speaker := "Speaker 1", start := "00:00", endTs := none, text := "a" },
           { speaker := "Speaker 2", start := "00:05", endTs := none, text := "b" }]
          (buildSpeakerNormalizationMap
            (uniqueSpeakers
              [{ speaker := "Speaker 1", start := "00:00", endTs := none, text := "a" },
               { speaker := "Speaker 2", start := "00:05", endTs := none, text := "b" }])
            ["Alice"]) := by
  decide

theorem buildMap_mem {cur known : List String} {p : String × String}
    (hp : p ∈ buildSpeakerNormalizationMap cur known) :
    isGeneric p.1 = true ∧ p.2 ∈ known.filter (fun s => !isGeneric s) := by
  unfold buildSpeakerNormalizationMap at hp
  dsimp only at hp
  split at hp
  · have hz := List.of_mem_zip hp
    exact ⟨(List.mem_filter.mp hz.1).2, hz.2⟩
  · exact absurd hp (List.not_mem_nil _)

theorem jsOrGet_eq_of_no_key {m : List (String × String)} {k : String}
    (h : ∀ p ∈ m, p.1 ≠ k) : jsOrGet m k = k := by
  unfold jsOrGet jsRecordGet
  have hfil : m.filter (fun p => p.1 = k) = [] := by
    rw [List.filter_eq_nil_iff]
    intro p hp
    simpa using h p hp
  rw [hfil]
  rfl

theorem exists_zip_pair {a : String} :
    ∀ (l1 l2 : List String), a ∈ l1 → l1.length ≤ l2.length →
      ∃ b, (a, b) ∈ l1.zip l2 := by
  intro l1
  induction l1 with
  | nil => intro l2 h _; exact absurd h (List.not_mem_nil a)
  | cons x xs ih =>
    intro l2 hmem hlen
    rcases l2 with _ | ⟨y, ys⟩
    · simp at hlen
    · rw [List.zip_cons_cons]
      rcases List.mem_cons.mp hmem with rfl | hmem'
      · exact ⟨y, List.mem_cons_self _ _⟩
      · obtain ⟨b, hb⟩ := ih ys hmem' (by simpa using hlen)
        exact ⟨b, List.mem_cons_of_mem _ hb⟩

theorem jsRecordGet_some_of_mem {m : List (String × String)} {k v : String}
    (h : (k, v) ∈ m) :
    ∃ p : String × String, jsRecordGet m k = some p.2 ∧ p ∈ m ∧ p.1 = k := by
  have hmemf : (k, v) ∈ m.filter (fun p => p.1 = k) :=
    List.mem_filter.mpr ⟨h, by simp⟩
  have hne : m.filter (fun p => p.1 = k) ≠ [] := List.ne_nil_of_mem hmemf
  refine ⟨(m.filter (fun p => p.1 = k)).getLast hne, ?_, ?_, ?_⟩
  · unfold jsRecordGet
    rw [List.getLast?_eq_getLast _ hne]
    rfl
  · exact List.mem_of_mem_filter (List.getLast_mem hne)
  · have := (List.mem_filter.mp (List.getLast_mem hne)).2
    simpa using this

/-- C9 (amended): labels remapped by reconciliation are non-generic,
so rebuilding a map from the reconciled transcript never remaps them;
and provided every generic speaker was matched by a named known
speaker on the first pass (at least as many named known speakers as
generic current speakers) and no known speaker is the empty string,
applying reconciliation a second time returns the transcript
unchanged.  (Without the matching condition a leftover generic speaker
is remapped by the second pass, see the counterexample.) -/
theorem normalize_idempotent (t : List TEntry) (known : List String)
    (hcount : ((uniqueSpeakers t).filter isGeneric).length ≤
              (known.filter fun s => !isGeneric s).length)
    (hnone : ∀ s ∈ known, s ≠ "") :
    normalizeTranscriptSpeakers
        (normalizeTranscriptSpeakers t
          (buildSpeakerNormalizationMap (uniqueSpeakers t) known))
        (buildSpeakerNormalizationMap
          (uniqueSpeakers (normalizeTranscriptSpeakers t
            (buildSpeakerNormalizationMap (uniqueSpeakers t) known))) known) =
      normalizeTranscriptSpeakers t
        (buildSpeakerNormalizationMap (uniqueSpeakers t) known) := by
  set m1 := buildSpeakerNormalizationMap (uniqueSpeakers t) known with hm1
  set t1 := normalizeTranscriptSpeakers t m1 with ht1
  by_cases hg : (uniqueSpeakers t).filter isGeneric = []
  · have hm1e : m1 = [] := by
      rw [hm1, buildSpeakerNormalizationMap]
      simp [hg]
    have ht1e : t1 = t := by
      rw [ht1, hm1e]
      rfl
    rw [ht1e, ← hm1, hm1e]
    rfl
  · have hglen : 0 < ((uniqueSpeakers t).filter isGeneric).length :=
      List.length_pos.mpr hg
    have hnk : 0 < (known.filter fun s => !isGeneric s).length :=
      lt_of_lt_of_le hglen hcount
    have hm1z : m1 = ((uniqueSpeakers t).filter isGeneric).zip
        (known.filter fun s => !isGeneric s) := by
      rw [hm1, buildSpeakerNormalizationMap, if_pos ⟨hnk, hglen⟩]
    have hm1ne : ¬ m1.isEmpty = true := by
      rw [hm1z]
      have hzlen : 0 < (((uniqueSpeakers t).filter isGeneric).zip
          (known.filter fun s => !isGeneric s)).length := by
        rw [List.length_zip]
        exact lt_min hglen hnk
      rcases hzl : ((uniqueSpeakers t).filter isGeneric).zip
          (known.filter fun s => !isGeneric s) with _ | ⟨p, ps⟩
      · rw [hzl] at hzlen
        simp at hzlen
      · simp
    have hspk : ∀ e ∈ t1, isGeneric e.speaker = false := by
      intro e he
      rw [ht1, normalizeTranscriptSpeakers, if_neg hm1ne] at he
      obtain ⟨e0, he0, rfl⟩ := List.mem_map.mp he
      cases hge : isGeneric e0.speaker with
      | false =>
        show isGeneric (jsOrGet m1 e0.speaker) = false
        rw [jsOrGet_eq_of_no_key]
        · exact hge
        · intro p hp heq
          have hpg := (buildMap_mem (hm1 ▸ hp)).1
          rw [heq, hge] at hpg
          exact Bool.false_ne_true hpg
      | true =>
        have hmem : e0.speaker ∈ (uniqueSpeakers t).filter isGeneric :=
          List.mem_filter.mpr
            ⟨mem_jsSetDedup.mpr (List.mem_map_of_mem _ he0), hge⟩
        obtain ⟨v, hv⟩ := exists_zip_pair _ _ hmem hcount
        rw [← hm1z] at hv
        obtain ⟨p, hpget, hpmem, hpk⟩ := jsRecordGet_some_of_mem hv
        have hp2 : p.2 ∈ known.filter (fun s => !isGeneric s) :=
          (buildMap_mem (hm1 ▸ hpmem)).2
        have hp2known : p.2 ∈ known := (List.mem_filter.mp hp2).1
        have hp2ng : isGeneric p.2 = false := by
          have := (List.mem_filter.mp hp2).2
          simpa using this
        show isGeneric (jsOrGet m1 e0.speaker) = false
        rw [jsOrGet, hpget]
        show isGeneric (if p.2 = "" then e0.speaker else p.2) = false
        rw [if_neg (hnone _ hp2known)]
        exact hp2ng
    have hg1 : (uniqueSpeakers t1).filter isGeneric = [] := by
      rw [List.filter_eq_nil_iff]
      intro s hs
      obtain ⟨e, hemem, rfl⟩ := List.mem_map.mp (mem_jsSetDedup.mp hs)
      simp [hspk e hemem]
    have hm2 : buildSpeakerNormalizationMap (uniqueSpeakers t1) known = [] := by
      rw [buildSpeakerNormalizationMap]
      simp [hg1]
    rw [hm2]
    rfl

/-- C9 witness: with speakers ["Speaker 1"] and knownSpeakers
["Alice"], every generic speaker is matched, and the second
reconciliation pass is a no-op. -/
theorem normalize_idempotent_witness :
    normalizeTranscriptSpeakers
        (normalizeTranscriptSpeakers
          [{ speaker := "Speaker 1", start := "00:00", endTs := none, text := "a" }]
          (buildSpeakerNormalizationMap
            (uniqueSpeakers
              [{ speaker := "Speaker 1", start := "00:00", endTs := none, text := "a" }])
            ["Alice"]))
        (buildSpeakerNormalizationMap
          (uniqueSpeakers (normalizeTranscriptSpeakers
            [{ speaker := "Speaker 1", start := "00:00", endTs := none, text := "a" }]
            (buildSpeakerNormalizationMap
              (uniqueSpeakers
                [{ speaker := "Speaker 1", start := "00:00", endTs := none, text := "a" }])
              ["Alice"]))) ["Alice"])
      = normalizeTranscriptSpeakers
          [{ speaker := "Speaker 1", start := "00:00", endTs := none, text := "a" }]
          (buildSpeakerNormalizationMap
            (uniqueSpeakers
              [{ speaker := "Speaker 1", start := "00:00", endTs := none, text := "a" }])
            ["Alice"]) :=
  normalize_idempotent
    [{ speaker := "Speaker 1", start := "00:00", endTs := none, text := "a" }]
    ["Alice"] (by decide) (by decide)

-- ===========================================
-- ai.ts: quota classification and the model-fallback loop
-- ===========================================

/-- Whether `cs` starts with the characters of `p`. -/
def hasHead : List Char → List Char → Bool
  | [], _ => true
  | _ :: _, [] => false
  | p :: ps, c :: cs => c = p && hasHead ps cs

/-- JS `hay.includes(needle)`: `needle` occurs contiguously in
`hay`. -/
def containsSeq (needle : List Char) : List Char → Bool
  | [] => needle.isEmpty
  | c :: cs => hasHead needle (c :: cs) || containsSeq needle cs

/-- The quota classification of every catch block in src/ai.ts
(e.g. `transcribeWithContext`, lines 475-484): lowercase the error
message and look for the rate-limit markers. -/
def isQuotaError (msg : String) : Bool :=
  let m := msg.data.map Char.toLower
  containsSeq "429".data m || containsSeq "503".data m ||
  containsSeq "quota".data m || containsSeq "rate limit".data m ||
  containsSeq "resource_exhausted".data m || containsSeq "overloaded".data m

/-- `CANDIDATE_MODELS` of src/config (part_004, lines 37-42). -/
def CANDIDATE_MODELS : List String :=
  ["models/gemini-2.5-pro", "models/gemini-2.5-flash",
   "models/gemini-2.0-flash", "models/gemini-2.0-flash-lite"]

/-- The ordered model list: preferred model first, then the fallback
list without it (src/ai.ts, lines 441-444). -/
def modelsToTry (preferredModel : Option String) : List String :=
  match preferredModel with
  | some p => p :: CANDIDATE_MODELS.filter (· ≠ p)
  | none => CANDIDATE_MODELS

/-- The outcome of one `generateContent` call: the response text, or a
thrown error message. -/
inductive GenResult
  | ok (text : String)
  | threw (msg : String)
  deriving Repr, DecidableEq

/-- The model-fallback loop of `GeminiClient.transcribeWithContext`
(src/ai.ts, lines 435-497), parametric in the completion service
(`gen`, the `generateContent` call per model) and in the JSON parse
boundary (`parseJson`, JS `JSON.parse`; `Except.error` carries the
thrown SyntaxError message).  A thrown API error and a parse error
land in the same catch block, which moves to the next model (after the
fixed one-second backoff, not modelled) only when `isQuotaError` holds
of the message, and otherwise rethrows; an exhausted list throws
"All models exhausted.".  Spinner output and cost tracking are not
modelled. -/
def transcribeWithContext (gen : String → GenResult)
    (parseJson : String → Except String (List TEntry)) :
    List String → Except String (List TEntry)
  | [] => .error "All models exhausted. Please try again later."
  | modelName :: rest =>
      match gen modelName with
      | .threw msg =>
          if isQuotaError msg then transcribeWithContext gen parseJson rest
          else .error msg
      | .ok text =>
          match parseJson text with
          | .ok segs => .ok segs
          | .error msg =>
              if isQuotaError msg then transcribeWithContext gen parseJson rest
              else .error msg

-- ===========================================
-- part_007 run loop: per-window transcription with validation retries
-- ===========================================

/-- One transcription attempt as the per-window loop observes it:
`uploadMedia` + `transcribeWithContext` either returned a segment list
or threw with a message. -/
inductive AttemptOutcome
  | success (segments : List TEntry)
  | failure (msg : String)
  deriving Repr, DecidableEq

/-- The validation summary recorded into a progress entry
(src/unnamed/part_007, lines 524-528); the issue message strings are
not modelled. -/
structure RecordedValidation where
  isValid : Bool
  coverage : JsNum
  deriving Repr, DecidableEq

/-- A `TranscriptionProgressEntry` (src/unnamed/part_007, lines
24-37); the prompt text and the wall-clock timestamp are not
modelled, and `response` records the segment list itself rather than
its JSON serialization. -/
structure ProgressEntry where
  chunkIndex : ℕ
  attempt : ℕ
  response : Option (List TEntry)
  error : Option String
  validationResult : Option RecordedValidation
  deriving Repr, DecidableEq

/-- The result of the attempt loop for one window. -/
structure ChunkOutcome where
  chunkData : List TEntry
  validationPassed : Bool
  knownSpeakers : List String
  progress : List ProgressEntry
  errorNotes : List String
  deriving Repr, DecidableEq

/-- The validation config the pipeline builds per attempt
(src/unnamed/part_007, lines 512-518): the explicit 60-percent
minimum coverage, 120-second maximum gap, lenient timing, and the
known speakers only when non-empty. -/
def pipelineValidationConfig (expectedDuration : ℚ) (known : List String) :
    ValidationConfig :=
  { expectedDuration := expectedDuration
    minCoveragePercent := 60
    maxGapSeconds := 120
    knownSpeakers := if known.length > 0 then some known else none
    strictTiming := false }

/-- The per-window attempt loop of `run` (src/unnamed/part_007, lines
478-605) on the non-cached path, parametric in the transcription
oracle (`oracle a` is the outcome of `uploadMedia` +
`transcribeWithContext` on attempt `a`).  `a` is the current attempt
index and `fuel` the number of loop iterations left (`retries + 1` at
the top call, since the loop runs `attempt = 0 .. validationRetries`);
the body is translated branch by branch.  File writes, console output
and the prompt/timing-hint strings are not modelled; the append-only
progress file is represented by the returned `progress` list, and the
"[Transcription error for chunk N]" markdown notes by `errorNotes`. -/
def attemptLoop (oracle : ℕ → AttemptOutcome) (retries : ℕ)
    (expectedDuration : ℚ) (enableTimingCheck : Bool) (i : ℕ) :
    ℕ → ℕ → List TEntry → List String → List ProgressEntry → List String →
    ChunkOutcome
  | _, 0, chunkData, known, progress, notes =>
      { chunkData := chunkData, validationPassed := false,
        knownSpeakers := known, progress := progress, errorNotes := notes }
  | a, fuel + 1, chunkData, known, progress, notes =>
      match oracle a with
      | .failure msg =>
          let e : ProgressEntry :=
            { chunkIndex := i, attempt := a + 1, response := none,
              error := some ("Gemini API Error: " ++ msg),
              validationResult := none }
          let notes' :=
            if a = retries then
              notes ++ ["\n[Transcription error for chunk " ++
                toString (i + 1) ++ "]\n"]
            else notes
          attemptLoop oracle retries expectedDuration enableTimingCheck i
            (a + 1) fuel chunkData known (progress ++ [e]) notes'
      | .success segs =>
          if enableTimingCheck = true ∧ segs.length > 0 then
            let vr := validateTranscript segs
              (pipelineValidationConfig expectedDuration known)
            let recorded : Option RecordedValidation :=
              some { isValid := vr.isValid, coverage := vr.stats.coverage }
            if vr.isValid = true then
              let data' :=
                if vr.issues.any fun iss =>
                    iss.type = IssueType.speaker_inconsistency then
                  let m := buildSpeakerNormalizationMap vr.stats.speakers known
                  if m.length > 0 then
                    (normalizeTranscriptSpeakers segs m).map fun it =>
                      { it with endTs := some (it.endTs.getD it.start) }
                  else segs
                else segs
              let newSpeakers :=
                vr.stats.speakers.filter fun s => !known.contains s
              { chunkData := data', validationPassed := true,
                knownSpeakers := known ++ newSpeakers,
                progress := progress ++
                  [{ chunkIndex := i, attempt := a + 1, response := some data',
                     error := none, validationResult := recorded }],
                errorNotes := notes }
            else if a < retries then
              attemptLoop oracle retries expectedDuration enableTimingCheck i
                (a + 1) fuel segs known
                (progress ++
                  [{ chunkIndex := i, attempt := a + 1, response := none,
                     error := some "Validation failed",
                     validationResult := recorded }])
                notes
            else
              { chunkData := segs, validationPassed := true,
                knownSpeakers := jsSetDedup (known ++ vr.stats.speakers),
                progress := progress ++
                  [{ chunkIndex := i, attempt := a + 1, response := some segs,
                     error := none, validationResult := recorded }],
                errorNotes := notes }
          else
            let speakers := jsSetDedup (segs.map (·.speaker))
            { chunkData := segs, validationPassed := true,
              knownSpeakers := jsSetDedup (known ++ speakers),
              progress := progress ++
                [{ chunkIndex := i, attempt := a + 1, response := some segs,
                   error := none, validationResult := none }],
              errorNotes := notes }

/-- The timestamp adjustment of `run` (src/unnamed/part_007, lines
612-620; identically src/index.ts, lines 469-476): each segment's
start is re-parsed, offset by the window's absolute start time and
re-formatted; the spread `...item` leaves every other field — the end
field included — unchanged. -/
def adjustChunk (chunkStartTime : ℚ) (chunkData : List TEntry) : List TEntry :=
  chunkData.map fun item =>
    { item with
        start := formatTimeJs (jsAdd (parseTime item.start) (some chunkStartTime)) }

/-- `fullTranscript = fullTranscript.concat(adjustedData)` per window
(src/unnamed/part_007, line 622), folded over the windows in order. -/
def assembleChunks (cds : List (ChunkInfo × List TEntry)) : List TEntry :=
  cds.foldl (fun acc p => acc ++ adjustChunk p.1.startTime p.2) []

/-- The pipeline state threaded through the chunk loop of `run`. -/
structure RunState where
  fullTranscript : List TEntry
  knownSpeakers : List String
  progress : List ProgressEntry
  chunkTranscriptions : List String
  deriving Repr, DecidableEq

/-- The markdown rendering of one adjusted chunk (src/unnamed/
part_007, lines 625-627). -/
def chunkMarkdown (adjusted : List TEntry) : String :=
  String.intercalate "\n\n" (adjusted.map fun item =>
    "**[" ++ item.start ++ "] " ++ item.speaker ++ ":** " ++ item.text)

/-- One iteration of the chunk loop of `run` (src/unnamed/part_007,
lines 457-654) on the non-cached path: run the attempt loop; skip the
window (`continue`, line 608) when nothing was accepted and the data
is empty; otherwise offset the timestamps and append to the assembled
transcript and the markdown chunk texts.  The markdown file rewrite,
the cache file and the previous-transcription context string are not
modelled.  The outer catch (lines 644-653), which appends the
SYSTEM/ERROR placeholder segment, fires only on an unexpected
exception outside the inner try (such as a file-system failure) —
transcription errors are caught inside the attempt loop — so this
step never produces that placeholder. -/
def processChunk (oracle : ℕ → AttemptOutcome) (retries : ℕ)
    (enableTimingCheck : Bool) (chunk : ChunkInfo) (i : ℕ)
    (st : RunState) : RunState :=
  let expectedDuration := chunk.endTime - chunk.startTime
  let r := attemptLoop oracle retries expectedDuration enableTimingCheck i
    0 (retries + 1) [] st.knownSpeakers [] []
  let st' : RunState :=
    { fullTranscript := st.fullTranscript
      knownSpeakers := r.knownSpeakers
      progress := st.progress ++ r.progress
      chunkTranscriptions := st.chunkTranscriptions ++ r.errorNotes }
  if ¬ r.validationPassed = true ∧ r.chunkData = [] then st'
  else
    let adjusted := adjustChunk chunk.startTime r.chunkData
    { st' with
        fullTranscript := st'.fullTranscript ++ adjusted
        chunkTranscriptions := st'.chunkTranscriptions ++ [chunkMarkdown adjusted] }

/-- The chunk loop of `run`: windows processed strictly in index
order, each iteration threading the updated state into the next. -/
def runChunks (oracle : ℕ → ℕ → AttemptOutcome) (retries : ℕ)
    (enableTimingCheck : Bool) (chunks : List (ℕ × ChunkInfo))
    (st : RunState) : RunState :=
  chunks.foldl
    (fun s p => processChunk (oracle p.1) retries enableTimingCheck p.2 p.1 s) st

-- ===========================================
-- C7: parse failures abort instead of falling back
-- ===========================================

/-- A completion service whose first candidate model answers non-JSON
text and whose other models answer the empty JSON array. -/
def c7gen : String → GenResult := fun m =>
  if m = "models/gemini-2.5-pro" then .ok "not json" else .ok "[]"

/-- The `JSON.parse` boundary on the two response texts above:
"not json" raises the V8 SyntaxError message, "[]" parses to the
empty segment list. -/
def c7parse : String → Except String (List TEntry) := fun text =>
  if text = "[]" then .ok []
  else .error "Unexpected token 'o', \"not json\" is not valid JSON"

/-- C7 counterexample: when the first model's response fails JSON
parsing, the call aborts with the SyntaxError instead of advancing to
the next model (which would have produced the empty segment list). -/
theorem parse_failure_aborts :
    transcribeWithContext c7gen c7parse CANDIDATE_MODELS =
      .error "Unexpected token 'o', \"not json\" is not valid JSON" ∧
    transcribeWithContext c7gen c7parse CANDIDATE_MODELS ≠ .ok [] := by
  constructor
  · rfl
  · intro h
    rw [show transcribeWithContext c7gen c7parse CANDIDATE_MODELS =
        .error "Unexpected token 'o', \"not json\" is not valid JSON" from rfl] at h
    exact Except.noConfusion h

/-- C7 (amended): a completion-service response whose JSON parsing
fails raises an error classified by its message in the same catch
block as API errors; since JSON SyntaxError messages carry no quota
marker, the parse failure is treated as a non-quota fatal error and
the call aborts immediately with it — it does not advance to the next
model and does not pass partial data through. -/
theorem transcribeWithContext_parse_failure (gen : String → GenResult)
    (parseJson : String → Except String (List TEntry))
    (modelName : String) (rest : List String) (text msg : String)
    (hgen : gen modelName = .ok text)
    (hparse : parseJson text = .error msg)
    (hq : isQuotaError msg = false) :
    transcribeWithContext gen parseJson (modelName :: rest) = .error msg := by
  rw [transcribeWithContext]
  simp only [hgen, hparse, hq, Bool.false_eq_true, if_false]

/-- C7 witness: the concrete service of the counterexample triggers
the abort, and the V8 SyntaxError message carries no quota marker. -/
theorem transcribeWithContext_parse_failure_witness :
    transcribeWithContext c7gen c7parse
        ("models/gemini-2.5-pro" :: ["models/gemini-2.5-flash"]) =
      .error "Unexpected token 'o', \"not json\" is not valid JSON" :=
  transcribeWithContext_parse_failure c7gen c7parse
    "models/gemini-2.5-pro" ["models/gemini-2.5-flash"]
    "not json" "Unexpected token 'o', \"not json\" is not valid JSON"
    rfl rfl (by decide)

-- ===========================================
-- C3: timeline assembly rewrites start only
-- ===========================================

theorem formatTime_615 : formatTime 615 = "00:10:15" := by
  have h1 : (⌊(615 : ℚ) / 3600⌋ : ℤ) = 0 := by
    rw [Int.floor_eq_iff]
    constructor <;> norm_num
  have h2 : jsMod (615 : ℚ) 3600 = 615 := by
    rw [jsMod, ratTrunc, if_pos (by norm_num : (0 : ℚ) ≤ 615 / 3600), h1]
    norm_num
  have h3 : (⌊jsMod (615 : ℚ) 3600 / 60⌋ : ℤ) = 10 := by
    rw [h2, Int.floor_eq_iff]
    constructor <;> norm_num
  have h60 : (⌊(615 : ℚ) / 60⌋ : ℤ) = 10 := by
    rw [Int.floor_eq_iff]
    constructor <;> norm_num
  have h4 : jsMod (615 : ℚ) 60 = 15 := by
    rw [jsMod, ratTrunc, if_pos (by norm_num : (0 : ℚ) ≤ 615 / 60), h60]
    norm_num
  have h5 : (⌊jsMod (615 : ℚ) 60⌋ : ℤ) = 15 := by
    rw [h4, show ((15 : ℚ)) = ((15 : ℤ) : ℚ) from by norm_num, Int.floor_intCast]
  rw [formatTime, h1, h3, h5]
  rfl

/-- C3 counterexample: for a window with absolute start 600 seconds, a
segment carrying end "00:15" keeps that window-local end verbatim
through timeline assembly, although the claim requires the end to be
offset to 615 seconds, i.e. "00:10:15". -/
theorem adjustChunk_keeps_end :
    ((adjustChunk 600
        [{ speaker := "A", start := "00:10", endTs := some "00:15", text := "hi" }]).map
      fun e => e.endTs) = [some "00:15"] ∧
    formatTimeJs (jsAdd (parseTime "00:15") (some 600)) = "00:10:15" ∧
    ("00:15" : String) ≠ "00:10:15" := by
  refine ⟨rfl, ?_, by decide⟩
  have hp : parseTime "00:15" = some 15 := by
    simp +decide [parseTime, parseParts, splitOnChar, splitOnCharAux, jsNumber,
      digitsToNat, jsAdd, jsMul]
  rw [hp, show jsAdd (some (15 : ℚ)) (some 600) = some 615 from by
    show some ((15 : ℚ) + 600) = some 615
    norm_num]
  exact formatTime_615

theorem foldl_append_flatten (cds : List (ChunkInfo × List TEntry)) :
    ∀ init, cds.foldl (fun acc p => acc ++ adjustChunk p.1.startTime p.2) init =
      init ++ (cds.map fun p => adjustChunk p.1.startTime p.2).flatten := by
  induction cds with
  | nil => intro init; simp
  | cons c cs ih =>
    intro init
    rw [List.foldl_cons, ih, List.map_cons, List.flatten_cons, List.append_assoc]

/-- C3 (amended): timeline assembly concatenates the windows' adjusted
segments in window order with the per-window segment order preserved,
and rewrites only each segment's window-local start (re-parsed, offset
by the window's absolute start time, re-formatted); the end field —
when present — and every other field are left unchanged in
window-local time. -/
theorem assemble_only_start (cds : List (ChunkInfo × List TEntry)) (S : ℚ)
    (l : List TEntry) (j : ℕ) :
    assembleChunks cds = (cds.map fun p => adjustChunk p.1.startTime p.2).flatten ∧
    (adjustChunk S l).length = l.length ∧
    (adjustChunk S l)[j]?.map (fun e => e.speaker) = l[j]?.map (fun e => e.speaker) ∧
    (adjustChunk S l)[j]?.map (fun e => e.endTs) = l[j]?.map (fun e => e.endTs) ∧
    (adjustChunk S l)[j]?.map (fun e => e.text) = l[j]?.map (fun e => e.text) ∧
    (adjustChunk S l)[j]?.map (fun e => e.tone) = l[j]?.map (fun e => e.tone) ∧
    (adjustChunk S l)[j]?.map (fun e => e.start) =
      l[j]?.map (fun e => formatTimeJs (jsAdd (parseTime e.start) (some S))) := by
  refine ⟨foldl_append_flatten cds [], ?_, ?_, ?_, ?_, ?_, ?_⟩
  · rw [adjustChunk, List.length_map]
  all_goals
    rw [adjustChunk, List.getElem?_map]
    cases l[j]? <;> rfl

-- ===========================================
-- C5: empty transcripts and the retry bound
-- ===========================================

theorem attemptLoop_progress_le (oracle : ℕ → AttemptOutcome) (retries : ℕ)
    (dur : ℚ) (check : Bool) (i : ℕ) :
    ∀ (fuel a : ℕ) (cd : List TEntry) (kn : List String)
      (pr : List ProgressEntry) (nt : List String),
      (attemptLoop oracle retries dur check i a fuel cd kn pr nt).progress.length ≤
        pr.length + fuel := by
  intro fuel
  induction fuel with
  | zero =>
    intro a cd kn pr nt
    rw [attemptLoop]
    exact Nat.le_add_right pr.length 0
  | succ fuel ih =>
    intro a cd kn pr nt
    rw [attemptLoop]
    split
    next msg heq =>
      refine le_trans (ih (a + 1) cd kn _ _) ?_
      simp only [List.length_append, List.length_cons, List.length_nil]
      omega
    next segs heq =>
      by_cases hchk : check = true ∧ segs.length > 0
      · rw [if_pos hchk]
        dsimp only
        by_cases hval :
            (validateTranscript segs (pipelineValidationConfig dur kn)).isValid = true
        · rw [if_pos hval]
          simp only [List.length_append, List.length_cons, List.length_nil]
          omega
        · rw [if_neg hval]
          by_cases hlt : a < retries
          · rw [if_pos hlt]
            refine le_trans (ih (a + 1) segs kn _ _) ?_
            simp only [List.length_append, List.length_cons, List.length_nil]
            omega
          · rw [if_neg hlt]
            simp only [List.length_append, List.length_cons, List.length_nil]
            omega
      · rw [if_neg hchk]
        simp only [List.length_append, List.length_cons, List.length_nil]
        omega

/-- C5 counterexample: a window whose transcription returns the empty
segment list is accepted immediately on the first attempt; the single
recorded progress entry carries neither a validation outcome nor an
error, so no empty/error validation outcome is recorded at all. -/
theorem empty_transcript_skips_validation :
    (attemptLoop (fun _ => .success []) 2 600 true 0 0 3 [] [] [] []).progress =
      [{ chunkIndex := 0, attempt := 1, response := some [], error := none,
         validationResult := none }] ∧
    (attemptLoop (fun _ => .success []) 2 600 true 0 0 3 [] [] [] []).validationPassed
      = true := by
  constructor <;> rfl

/-- C5 (amended): a window whose transcription returns an empty
segment list on the first attempt is accepted immediately — the
`chunkData.length > 0` guard skips validation entirely, so neither an
empty/error validation outcome nor an error is recorded for it, and no
retry happens — and, for every oracle, the loop is bounded: it records
at most `retries + 1` progress entries (one per attempt) and never
runs an unbounded number of attempts. -/
theorem attemptLoop_empty_bounded (oracle : ℕ → AttemptOutcome) (retries : ℕ)
    (dur : ℚ) (i : ℕ) (known : List String)
    (hempty : oracle 0 = .success []) :
    ((attemptLoop oracle retries dur true i 0 (retries + 1) [] known [] []).validationPassed
        = true ∧
     (attemptLoop oracle retries dur true i 0 (retries + 1) [] known [] []).progress =
       [{ chunkIndex := i, attempt := 1, response := some [], error := none,
          validationResult := none }]) ∧
    ∀ (orc : ℕ → AttemptOutcome) (fuel a : ℕ) (cd : List TEntry)
      (kn : List String) (pr : List ProgressEntry) (nt : List String),
      (attemptLoop orc retries dur true i a fuel cd kn pr nt).progress.length ≤
        pr.length + fuel := by
  refine ⟨?_, fun orc => attemptLoop_progress_le orc retries dur true i⟩
  rw [attemptLoop]
  simp only [hempty]
  rw [if_neg (by simp)]
  exact ⟨rfl, rfl⟩

/-- C5 witness: the concrete always-empty oracle at two configured
retries is accepted on attempt 1 with nothing recorded. -/
theorem attemptLoop_empty_bounded_witness :
    ((attemptLoop (fun _ => .success []) 2 600 true 0 0 (2 + 1) [] ["Bob"] [] []).validationPassed
        = true ∧
     (attemptLoop (fun _ => .success []) 2 600 true 0 0 (2 + 1) [] ["Bob"] [] []).progress =
       [{ chunkIndex := 0, attempt := 1, response := some [], error := none,
          validationResult := none }]) ∧
    ∀ (orc : ℕ → AttemptOutcome) (fuel a : ℕ) (cd : List TEntry)
      (kn : List String) (pr : List ProgressEntry) (nt : List String),
      (attemptLoop orc 2 600 true 0 a fuel cd kn pr nt).progress.length ≤
        pr.length + fuel :=
  attemptLoop_empty_bounded (fun _ => .success []) 2 600 0 ["Bob"] rfl

-- ===========================================
-- C6: terminal window failure leaves no placeholder
-- ===========================================

theorem attemptLoop_all_fail (msg : String) (oracle : ℕ → AttemptOutcome)
    (retries : ℕ) (dur : ℚ) (check : Bool) (i : ℕ)
    (hfail : ∀ a, oracle a = .failure msg) :
    ∀ (fuel a : ℕ) (cd : List TEntry) (kn : List String)
      (pr : List ProgressEntry) (nt : List String),
      a + fuel = retries + 1 → 1 ≤ fuel →
      ∃ ps, attemptLoop oracle retries dur check i a fuel cd kn pr nt =
        { chunkData := cd, validationPassed := false, knownSpeakers := kn,
          progress := pr ++ ps,
          errorNotes := nt ++ ["\n[Transcription error for chunk " ++
            toString (i + 1) ++ "]\n"] } := by
  intro fuel
  induction fuel with
  | zero =>
    intro a cd kn pr nt _ hf
    exact absurd hf (by omega)
  | succ fuel ih =>
    intro a cd kn pr nt hsum _
    rw [attemptLoop]
    simp only [hfail a]
    rcases Nat.eq_zero_or_pos fuel with hf0 | hfpos
    · subst hf0
      have ha : a = retries := by omega
      rw [if_pos ha]
      rw [attemptLoop]
      exact ⟨_, rfl⟩
    · have ha : ¬ a = retries := by omega
      rw [if_neg ha]
      obtain ⟨ps, hps⟩ := ih (a + 1) cd kn
        (pr ++ [{ chunkIndex := i, attempt := a + 1, response := none,
                  error := some ("Gemini API Error: " ++ msg),
                  validationResult := none }]) nt (by omega) (by omega)
      refine ⟨[{ chunkIndex := i, attempt := a + 1, response := none,
                 error := some ("Gemini API Error: " ++ msg),
                 validationResult := none }] ++ ps, ?_⟩
      rw [hps, List.append_assoc]

/-- C6 counterexample: a window whose every transcription attempt
fails terminally contributes nothing to the assembled transcript — in
particular no SYSTEM/ERROR placeholder segment — and only an error
note in the markdown chunk texts. -/
theorem failed_window_no_placeholder :
    (processChunk (fun _ => .failure "quota exceeded") 2 true
        { startTime := 600, endTime := 1200, index := 1 } 1
        { fullTranscript := [], knownSpeakers := [], progress := [],
          chunkTranscriptions := [] }).fullTranscript = [] ∧
    (processChunk (fun _ => .failure "quota exceeded") 2 true
        { startTime := 600, endTime := 1200, index := 1 } 1
        { fullTranscript := [], knownSpeakers := [], progress := [],
          chunkTranscriptions := [] }).chunkTranscriptions =
      ["\n[Transcription error for chunk 2]\n"] := by
  constructor <;> rfl

/-- C6 (amended): when every attempt for a window fails terminally,
the window is skipped without inserting any placeholder segment — the
assembled transcript and the known speakers are left unchanged, with
only the "[Transcription error for chunk N]" note appended to the
markdown chunk texts — and the run continues with the subsequent
windows: the chunk loop feeds the updated state into the rest of the
fold.  The SYSTEM/ERROR placeholder of the outer catch is reserved for
unexpected exceptions outside the attempt loop. -/
theorem processChunk_all_fail (msg : String) (oracle : ℕ → AttemptOutcome)
    (retries : ℕ) (check : Bool) (chunk : ChunkInfo) (i : ℕ) (st : RunState)
    (hfail : ∀ a, oracle a = .failure msg) :
    (∃ ps, processChunk oracle retries check chunk i st =
      { fullTranscript := st.fullTranscript
        knownSpeakers := st.knownSpeakers
        progress := st.progress ++ ps
        chunkTranscriptions := st.chunkTranscriptions ++
          ["\n[Transcription error for chunk " ++ toString (i + 1) ++ "]\n"] }) ∧
    ∀ (orc : ℕ → ℕ → AttemptOutcome) (rest : List (ℕ × ChunkInfo))
      (s : RunState) (j : ℕ) (ch : ChunkInfo),
      runChunks orc retries check ((j, ch) :: rest) s =
        runChunks orc retries check rest
          (processChunk (orc j) retries check ch j s) := by
  constructor
  · obtain ⟨ps, hps⟩ := attemptLoop_all_fail msg oracle retries
      (chunk.endTime - chunk.startTime) check i hfail (retries + 1) 0 []
      st.knownSpeakers [] [] (by omega) (by omega)
    refine ⟨ps, ?_⟩
    simp only [processChunk]
    rw [hps]
    rw [if_pos ⟨by simp, rfl⟩]
    rfl
  · intro orc rest s j ch
    rfl

/-- C6 witness: the concrete always-failing window at index 1 leaves
the assembled transcript untouched and the loop equation holds. -/
theorem processChunk_all_fail_witness :
    (∃ ps, processChunk (fun _ => .failure "quota exceeded") 2 true
        { startTime := 600, endTime := 1200, index := 1 } 1
        { fullTranscript := [], knownSpeakers := ["Alice"], progress := [],
          chunkTranscriptions := [] } =
      { fullTranscript := []
        knownSpeakers := ["Alice"]
        progress := [] ++ ps
        chunkTranscriptions := [] ++ ["\n[Transcription error for chunk 2]\n"] }) ∧
    ∀ (orc : ℕ → ℕ → AttemptOutcome) (rest : List (ℕ × ChunkInfo))
      (s : RunState) (j : ℕ) (ch : ChunkInfo),
      runChunks orc 2 true ((j, ch) :: rest) s =
        runChunks orc 2 true rest (processChunk (orc j) 2 true ch j s) :=
  processChunk_all_fail "quota exceeded" (fun _ => .failure "quota exceeded") 2 true
    { startTime := 600, endTime := 1200, index := 1 } 1
    { fullTranscript := [], knownSpeakers := ["Alice"], progress := [],
      chunkTranscriptions := [] } (fun _ => rfl)

-- ===========================================
-- C8: knownSpeakers growth and the merge source
-- ===========================================

theorem validateTranscript_speakers_nodup (segs : List TEntry)
    (cfg : ValidationConfig) :
    (validateTranscript segs cfg).stats.speakers.Nodup := by
  rw [validateTranscript]
  split
  · exact List.nodup_nil
  · exact nodup_jsSetDedup _

theorem attemptLoop_known_mono (oracle : ℕ → AttemptOutcome) (retries : ℕ)
    (dur : ℚ) (check : Bool) (i : ℕ) :
    ∀ (fuel a : ℕ) (cd : List TEntry) (kn : List String)
      (pr : List ProgressEntry) (nt : List String), kn.Nodup →
      (attemptLoop oracle retries dur check i a fuel cd kn pr nt).knownSpeakers.Nodup ∧
      ∃ tl, (attemptLoop oracle retries dur check i a fuel cd kn pr nt).knownSpeakers
          = kn ++ tl := by
  intro fuel
  induction fuel with
  | zero =>
    intro a cd kn pr nt hnd
    rw [attemptLoop]
    exact ⟨hnd, [], (List.append_nil kn).symm⟩
  | succ fuel ih =>
    intro a cd kn pr nt hnd
    rw [attemptLoop]
    split
    next msg heq => exact ih (a + 1) cd kn _ _ hnd
    next segs heq =>
      by_cases hchk : check = true ∧ segs.length > 0
      · rw [if_pos hchk]
        dsimp only
        by_cases hval :
            (validateTranscript segs (pipelineValidationConfig dur kn)).isValid = true
        · rw [if_pos hval]
          constructor
          · show (kn ++ (validateTranscript segs
                (pipelineValidationConfig dur kn)).stats.speakers.filter
                (fun s => !kn.contains s)).Nodup
            rw [List.nodup_append]
            refine ⟨hnd, List.Nodup.filter _
              (validateTranscript_speakers_nodup segs _), ?_⟩
            intro x hx hxf
            have hnc := (List.mem_filter.mp hxf).2
            simp at hnc
            exact hnc hx
          · exact ⟨_, rfl⟩
        · rw [if_neg hval]
          by_cases hlt : a < retries
          · rw [if_pos hlt]
            exact ih (a + 1) segs kn _ _ hnd
          · rw [if_neg hlt]
            exact ⟨nodup_jsSetDedup _, jsSetDedup_append_left kn _ hnd⟩
      · rw [if_neg hchk]
        exact ⟨nodup_jsSetDedup _, jsSetDedup_append_left kn _ hnd⟩

theorem processChunk_known_mono (oracle : ℕ → AttemptOutcome) (retries : ℕ)
    (check : Bool) (chunk : ChunkInfo) (i : ℕ) (st : RunState)
    (hnd : st.knownSpeakers.Nodup) :
    (processChunk oracle retries check chunk i st).knownSpeakers.Nodup ∧
    ∃ tl, (processChunk oracle retries check chunk i st).knownSpeakers
        = st.knownSpeakers ++ tl := by
  obtain ⟨h1, tl, h2⟩ := attemptLoop_known_mono oracle retries
    (chunk.endTime - chunk.startTime) check i (retries + 1) 0 [] st.knownSpeakers
    [] [] hnd
  simp only [processChunk]
  split
  · exact ⟨h1, tl, h2⟩
  · exact ⟨h1, tl, h2⟩

theorem runChunks_known_mono (oracle : ℕ → ℕ → AttemptOutcome) (retries : ℕ)
    (check : Bool) :
    ∀ (chunks : List (ℕ × ChunkInfo)) (st : RunState), st.knownSpeakers.Nodup →
      (runChunks oracle retries check chunks st).knownSpeakers.Nodup ∧
      ∃ tl, (runChunks oracle retries check chunks st).knownSpeakers
          = st.knownSpeakers ++ tl := by
  intro chunks
  induction chunks with
  | nil =>
    intro st hnd
    exact ⟨hnd, [], (List.append_nil _).symm⟩
  | cons c cs ih =>
    intro st hnd
    obtain ⟨h1, tl, h2⟩ :=
      processChunk_known_mono (oracle c.1) retries check c.2 c.1 st hnd
    have hstep : runChunks oracle retries check (c :: cs) st =
        runChunks oracle retries check cs
          (processChunk (oracle c.1) retries check c.2 c.1 st) := rfl
    rw [hstep]
    obtain ⟨g1, tl2, g2⟩ := ih _ h1
    refine ⟨g1, tl ++ tl2, ?_⟩
    rw [g2, h2, List.append_assoc]

/-- C8 (amended): knownSpeakers only ever grows across the sequential
window loop — every earlier element is retained, in order, as a prefix
of the updated list, which stays duplicate-free — but the set merged
in after a successfully validated window is the window's
PRE-reconciliation speaker set (the unique speakers computed during
validation, before any remapping): the accepted value appended to
knownSpeakers is `stats.speakers.filter (not already known)`, computed
from the un-normalized transcript. -/
theorem knownSpeakers_monotone (oracle : ℕ → ℕ → AttemptOutcome) (retries : ℕ)
    (check : Bool) (chunks : List (ℕ × ChunkInfo)) (st : RunState)
    (hnd : st.knownSpeakers.Nodup) :
    ((runChunks oracle retries check chunks st).knownSpeakers.Nodup ∧
     ∃ tl, (runChunks oracle retries check chunks st).knownSpeakers
         = st.knownSpeakers ++ tl) ∧
    ∀ (orc : ℕ → AttemptOutcome) (dur : ℚ) (i : ℕ) (kn : List String)
      (segs : List TEntry),
      orc 0 = .success segs → segs ≠ [] →
      (validateTranscript segs (pipelineValidationConfig dur kn)).isValid = true →
      (attemptLoop orc retries dur true i 0 (retries + 1) [] kn [] []).knownSpeakers =
        kn ++ (validateTranscript segs
          (pipelineValidationConfig dur kn)).stats.speakers.filter
          (fun s => !kn.contains s) := by
  refine ⟨runChunks_known_mono oracle retries check chunks st hnd, ?_⟩
  intro orc dur i kn segs hsucc hne hval
  rw [attemptLoop]
  simp only [hsucc]
  rw [if_pos ⟨trivial, List.length_pos.mpr hne⟩]
  rw [if_pos hval]

/-- Shorthand for the C8 counterexample segment list: one segment by
the generic "Speaker 1" while "Alice" is already known. -/
def c8segs : List TEntry :=
  [{ speaker := "Speaker 1", start := "00:00", endTs := none, text := "hello",
     tone := none }]

theorem c8_validate_eval :
    validateTranscript
        [{ speaker := "Speaker 1", start := "00:00", endTs := none, text := "hello",
           tone := none }]
        (pipelineValidationConfig 600 ["Alice"]) =
      { isValid := true
        issues := [{ type := .timing_underflow, severity := .warning },
                   { type := .speaker_inconsistency, severity := .warning }]
        stats := { entryCount := 1, firstTimestamp := some 0, lastTimestamp := some 0,
                   expectedDuration := 600, coverage := some 0,
                   speakers := ["Speaker 1"], largestGap := 0 } } := by
  have hts : parseTimestamp "00:00" = some 0 := by
    simp +decide [parseTimestamp, parseParts, splitOnChar, splitOnCharAux, jsNumber,
      digitsToNat, jsAdd, jsMul]
  rw [validateTranscript]
  rw [if_neg (by simp)]
  norm_num +decide [pipelineValidationConfig, hts, jsSetDedup, insertUnique,
    jsMinList, jsMaxList, jsMin2, jsMax2, jsSub, jsDiv, jsMul, jsSortNums,
    computeLargestGap, jsLtB, jsGtB, isGeneric, stripHead, spacesThenDigits,
    List.mergeSort_singleton, Option.pure_def, Option.bind_eq_bind, Option.some_bind,
    ValidationResult.mk.injEq, TranscriptStats.mk.injEq, ValidationIssue.mk.injEq]

theorem c8_attempt_eval :
    attemptLoop (fun _ => .success c8segs) 2 600 true 0 0 3 [] ["Alice"] [] [] =
      { chunkData := [{ speaker := "Alice", start := "00:00", endTs := some "00:00",
                        text := "hello", tone := none }]
        validationPassed := true
        knownSpeakers := ["Alice", "Speaker 1"]
        progress := [{ chunkIndex := 0, attempt := 1,
                       response := some [{ speaker := "Alice", start := "00:00",
                                           endTs := some "00:00", text := "hello",
                                           tone := none }],
                       error := none,
                       validationResult := some { isValid := true, coverage := some 0 } }]
        errorNotes := [] } := by
  rw [show (3 : ℕ) = 2 + 1 from rfl, attemptLoop]
  simp +decide [c8segs, c8_validate_eval, buildSpeakerNormalizationMap,
    normalizeTranscriptSpeakers, jsOrGet, jsRecordGet, isGeneric, stripHead,
    spacesThenDigits, jsSetDedup, insertUnique]

/-- C8 counterexample: with knownSpeakers ["Alice"] and a window whose
single segment is spoken by "Speaker 1", validation flags the
inconsistency and reconciliation rewrites the segment to "Alice" — the
post-reconciliation speaker set is ["Alice"] — yet the loop merges the
pre-reconciliation set, so knownSpeakers becomes
["Alice", "Speaker 1"] instead of staying ["Alice"]. -/
theorem merged_speakers_pre_reconciliation :
    ((attemptLoop (fun _ => .success c8segs) 2 600 true 0 0 3 []
        ["Alice"] [] []).chunkData.map fun e => e.speaker) = ["Alice"] ∧
    (attemptLoop (fun _ => .success c8segs) 2 600 true 0 0 3 []
        ["Alice"] [] []).knownSpeakers = ["Alice", "Speaker 1"] := by
  rw [c8_attempt_eval]
  exact ⟨rfl, rfl⟩

/-- C8 witness: the monotone-growth statement instantiated at a
concrete state with knownSpeakers ["Alice"]. -/
theorem knownSpeakers_monotone_witness :
    ((runChunks (fun _ _ => .success c8segs) 2 true []
        { fullTranscript := [], knownSpeakers := ["Alice"], progress := [],
          chunkTranscriptions := [] }).knownSpeakers.Nodup ∧
     ∃ tl, (runChunks (fun _ _ => .success c8segs) 2 true []
        { fullTranscript := [], knownSpeakers := ["Alice"], progress := [],
          chunkTranscriptions := [] }).knownSpeakers = ["Alice"] ++ tl) ∧
    ∀ (orc : ℕ → AttemptOutcome) (dur : ℚ) (i : ℕ) (kn : List String)
      (segs : List TEntry),
      orc 0 = .success segs → segs ≠ [] →
      (validateTranscript segs (pipelineValidationConfig dur kn)).isValid = true →
      (attemptLoop orc 2 dur true i 0 (2 + 1) [] kn [] []).knownSpeakers =
        kn ++ (validateTranscript segs
          (pipelineValidationConfig dur kn)).stats.speakers.filter
          (fun s => !kn.contains s) :=
  knownSpeakers_monotone (fun _ _ => .success c8segs) 2 true []
    { fullTranscript := [], knownSpeakers := ["Alice"], progress := [],
      chunkTranscriptions := [] } (by decide)

end SB
